import Mathlib

/-!
Verification development for the Reddit review extractor repository.

The delivered repository ships only presentation screens
(`src/frontend/src/pages/Dashboard.tsx`, `Login.tsx`); the
multi-source sentiment pipeline described in the specification is not
implemented.  The Dashboard component is embedded here directly from its
TypeScript source; the pipeline components (deduplicator, scorer,
aggregator, orchestrator) are modelled from the specification, each such
definition carrying a doc comment starting with `Modelled from the spec:`.
-/

namespace RedditReview

/-! ## Dashboard component (from `src/frontend/src/pages/Dashboard.tsx`) -/

/-- The React component's local state: `useState("")` for `companyName`
and `useState(false)` for `isAnalyzing`. -/
structure DashboardState where
  companyName : String
  isAnalyzing : Bool
deriving DecidableEq, Repr

/-- Side effects a Dashboard event handler can emit.  `apiCall` is included
so that absence of any network request is expressible; the delivered
handler never emits it. -/
inductive DashboardEffect where
  | preventDefault : DashboardEffect
  | consoleLog (parts : List String) : DashboardEffect
  | apiCall (endpoint : String) : DashboardEffect
  | scheduleTimeout (delayMs : Nat) : DashboardEffect
deriving DecidableEq, Repr

/-- `handleAnalyze` from `Dashboard.tsx` lines 11-18: prevents the default
form event, sets `isAnalyzing` to `true`, logs
`"Analyzing company:", companyName`, and schedules a 2000 ms timeout whose
callback is `analyzeTimeoutCallback`.  It performs nothing else. -/
def handleAnalyze (s : DashboardState) : DashboardState × List DashboardEffect :=
  ({ s with isAnalyzing := true },
   [DashboardEffect.preventDefault,
    DashboardEffect.consoleLog ["Analyzing company:", s.companyName],
    DashboardEffect.scheduleTimeout 2000])

/-- The callback passed to `setTimeout` in `handleAnalyze`:
`() => setIsAnalyzing(false)`. -/
def analyzeTimeoutCallback (s : DashboardState) : DashboardState :=
  { s with isAnalyzing := false }

/-- The state-dependent parts of the Dashboard's rendered output: the
Analyze submit button (`disabled={isAnalyzing}`, label
`isAnalyzing ? "Analyzing..." : "Analyze"`) and the three per-source
sentiment cards, whose values are the literal placeholder `"--"`. -/
structure DashboardView where
  analyzeButtonDisabled : Bool
  analyzeButtonLabel : String
  twitterSentiment : String
  redditSentiment : String
  newsSentiment : String
deriving DecidableEq, Repr

/-- The render function of the Dashboard component, restricted to its
state-dependent parts (from `Dashboard.tsx` lines 52-105). -/
def renderDashboard (s : DashboardState) : DashboardView :=
  { analyzeButtonDisabled := s.isAnalyzing
    analyzeButtonLabel := if s.isAnalyzing then "Analyzing..." else "Analyze"
    twitterSentiment := "--"
    redditSentiment := "--"
    newsSentiment := "--" }

/-! ## Pipeline data model (modelled from the spec, §3-§4) -/

/-- Modelled from the spec: a `RawItem`
`{source_id, external_id, author, text, created_at, url}` produced by a
Source Connector; immutable once emitted.  Timestamps are seconds since
the epoch. -/
structure RawItem where
  source_id : String
  external_id : String
  author : String
  text : String
  created_at : Nat
  url : String
deriving DecidableEq, Repr

/-- Splits a character stream into maximal whitespace-free words;
`cur` accumulates the current word reversed. -/
def wordsAux (cur : List Char) : List Char → List (List Char)
  | [] => if cur = [] then [] else [cur.reverse]
  | c :: rest =>
    if c.isWhitespace then
      (if cur = [] then wordsAux [] rest else cur.reverse :: wordsAux [] rest)
    else wordsAux (c :: cur) rest

/-- Joins words with single spaces. -/
def joinWords : List (List Char) → List Char
  | [] => []
  | [w] => w
  | w :: rest => w ++ ' ' :: joinWords rest

/-- Modelled from the spec: text normalization used by the Deduplicator
(§4.2): lowercased, whitespace-collapsed. -/
def normalizeText (s : String) : String :=
  String.mk (joinWords (wordsAux [] (s.data.map Char.toLower)))

/-- Modelled from the spec: a `ContentFingerprint` is a stable hash of
normalized text + `source_id`; the hash is modelled collision-free as the
pair itself, matching the spec's intent that dedup be exact on normalized
text within a source. -/
def fingerprintOf (r : RawItem) : String × String :=
  (r.source_id, normalizeText r.text)

/-- Modelled from the spec: a `ScoredItem` is a `RawItem` plus sentiment
fields; immutable after creation.  Scores are rationals, modelling the
spec's bounded continuous scores. -/
structure ScoredItem where
  raw : RawItem
  sentiment_score : ℚ
  confidence : ℚ
  model_version : String
  mention_span : Option (Nat × Nat)
deriving DecidableEq, Repr

/-- The `(fingerprint, model_version)` key by which the Aggregator tracks
applied contributions (§4.5). -/
def itemKey (s : ScoredItem) : (String × String) × String :=
  (fingerprintOf s.raw, s.model_version)

/-- Modelled from the spec: the Sentiment Scorer contract (§4.4), a pure
function of normalized text for a fixed `model_version`; the concrete
model is left pluggable. -/
structure SentimentScorer where
  model_version : String
  scoreFn : String → ℚ × ℚ

/-- Modelled from the spec: one scorer invocation.  External mutable state
is threaded explicitly (here: a call log recording call order); the
returned `(score, confidence)` is a function of the normalized text and
the scorer alone. -/
def invokeScorer (sc : SentimentScorer) (callLog : List String) (t : String) :
    (ℚ × ℚ) × List String :=
  (sc.scoreFn (normalizeText t), t :: callLog)

/-- Modelled from the spec: sentiment banding thresholds are a
configuration, not a hardcoded constant (§4.5). -/
structure BandConfig where
  positive_threshold : ℚ
  negative_threshold : ℚ
deriving DecidableEq, Repr

/-- The spec's example thresholds ±0.2. -/
def defaultBandConfig : BandConfig :=
  { positive_threshold := 2/10, negative_threshold := -(2/10) }

/-- Coarse positive/neutral/negative classification of a score. -/
inductive SentimentBand where
  | positive : SentimentBand
  | negative : SentimentBand
  | neutral : SentimentBand
deriving DecidableEq, Repr

/-- Modelled from the spec: banding by fixed thresholds (§4.5):
score ≥ positive threshold → positive, ≤ negative threshold → negative,
else neutral. -/
def bandOf (cfg : BandConfig) (score : ℚ) : SentimentBand :=
  if cfg.positive_threshold ≤ score then SentimentBand.positive
  else if score ≤ cfg.negative_threshold then SentimentBand.negative
  else SentimentBand.neutral

/-- Modelled from the spec: the aggregate counters owned by a
`TimeBucket`: `{count, sum_score, positive_count, negative_count,
neutral_count}`. -/
structure BucketStats where
  count : Nat
  sum_score : ℚ
  positive_count : Nat
  negative_count : Nat
  neutral_count : Nat
deriving DecidableEq, Repr

/-- The all-zero counters of a bucket no item has reached. -/
def emptyStats : BucketStats :=
  { count := 0, sum_score := 0, positive_count := 0, negative_count := 0,
    neutral_count := 0 }

/-- Modelled from the spec: the contribution of one scored item to its
bucket's counters. -/
def applyStats (cfg : BandConfig) (st : BucketStats) (s : ScoredItem) : BucketStats :=
  { count := st.count + 1
    sum_score := st.sum_score + s.sentiment_score
    positive_count := st.positive_count +
      (if bandOf cfg s.sentiment_score = SentimentBand.positive then 1 else 0)
    negative_count := st.negative_count +
      (if bandOf cfg s.sentiment_score = SentimentBand.negative then 1 else 0)
    neutral_count := st.neutral_count +
      (if bandOf cfg s.sentiment_score = SentimentBand.neutral then 1 else 0) }

/-- Seconds per day: the fixed bucket width of the daily `TimeBucket`. -/
def bucketWidth : Nat := 86400

/-- Start of the daily bucket containing timestamp `t`. -/
def bucketStart (t : Nat) : Nat := t / bucketWidth * bucketWidth

/-- The `{source_id, bucket_start}` key of the `TimeBucket` a scored item
falls in. -/
def bucketKey (s : ScoredItem) : String × Nat :=
  (s.raw.source_id, bucketStart s.raw.created_at)

/-- Modelled from the spec: the Aggregator's state — the set of applied
`(fingerprint, model_version)` contributions (§4.5) and the counters of
every `TimeBucket`, keyed by `(source_id, bucket_start)`. -/
@[ext] structure AggState where
  applied : Finset ((String × String) × String)
  buckets : String × Nat → BucketStats

/-- The Aggregator's initial state: nothing applied, every bucket empty. -/
def agg0 : AggState :=
  { applied := ∅, buckets := fun _ => emptyStats }

/-- Modelled from the spec: `fold(scored_item) -> updated TimeBucket`
(§4.5): the Aggregator keys applied contributions by
`(fingerprint, model_version)` and rejects re-application; a fresh item
updates only its own bucket's counters. -/
def foldItem (cfg : BandConfig) (a : AggState) (s : ScoredItem) : AggState :=
  if itemKey s ∈ a.applied then a
  else
    { applied := insert (itemKey s) a.applied
      buckets := Function.update a.buckets (bucketKey s)
        (applyStats cfg (a.buckets (bucketKey s)) s) }

/-- Folding a whole arrival sequence of scored items into the Aggregator. -/
def runAgg (cfg : BandConfig) (a : AggState) (l : List ScoredItem) : AggState :=
  l.foldl (foldItem cfg) a

/-- The subsequence of an arrival sequence that the Aggregator actually
applies: the first occurrence of each `(fingerprint, model_version)` key
not already in `applied`. -/
def freshItems (applied : Finset ((String × String) × String)) :
    List ScoredItem → List ScoredItem
  | [] => []
  | s :: rest =>
    if itemKey s ∈ applied then freshItems applied rest
    else s :: freshItems (insert (itemKey s) applied) rest

/-! ## Deduplicator and per-run pipeline (modelled from the spec, §4.2) -/

/-- Modelled from the spec: the Deduplicator's atomic check-and-record
pass over a connector's raw items, keeping only items whose fingerprint
is not yet in the seen set. -/
def dedupItems (seen : Finset (String × String)) :
    List RawItem → List RawItem
  | [] => []
  | r :: rest =>
    if fingerprintOf r ∈ seen then dedupItems seen rest
    else r :: dedupItems (insert (fingerprintOf r) seen) rest

/-- Modelled from the spec: scoring a deduplicated item with a scorer
(§4.4); the mention extractor is modelled as pass-through (no claim under
verification concerns its filtering). -/
def scoreItem (sc : SentimentScorer) (r : RawItem) : ScoredItem :=
  { raw := r
    sentiment_score := (sc.scoreFn (normalizeText r.text)).1
    confidence := (sc.scoreFn (normalizeText r.text)).2
    model_version := sc.model_version
    mention_span := none }

/-- Modelled from the spec: the per-entity-query pipeline for one
analysis run — the Deduplicator's fingerprint set is scoped per entity
query (§4.2), so each run starts from an empty seen set; surviving items
are scored.  `entity_query` scopes the run; it does not alter
deduplication, which is keyed on `(source_id, normalized text)`. -/
def pipelineScored (sc : SentimentScorer) (entity_query : String)
    (items : List RawItem) : List ScoredItem :=
  (dedupItems ∅ items).map (scoreItem sc)

/-! ## Orchestrator (modelled from the spec, §4.6) -/

/-- Modelled from the spec: the Orchestrator's run states
`pending → fetching → scoring → aggregating → {completed |
completed_partial | failed}`; `completedPartial` renders the spec's
`completed_partial`. -/
inductive RunStatus where
  | pending : RunStatus
  | fetching : RunStatus
  | scoring : RunStatus
  | aggregating : RunStatus
  | completed : RunStatus
  | completedPartial : RunStatus
  | failed : RunStatus
deriving DecidableEq, Repr

/-- The terminal states of an `AnalysisRun`. -/
def isTerminal : RunStatus → Bool
  | RunStatus.completed => true
  | RunStatus.completedPartial => true
  | RunStatus.failed => true
  | _ => false

/-- Modelled from the spec: an `AnalysisRun` record
`{run_id, entity_query, requested_at, status, sources_requested,
sources_completed, sources_failed}`. -/
structure AnalysisRun where
  run_id : Nat
  entity_query : String
  requested_at : Nat
  status : RunStatus
  sources_requested : List String
  sources_completed : List String
  sources_failed : List String
deriving DecidableEq, Repr

/-- Modelled from the spec: the outcome of one dispatched connector —
either the raw items it emitted, or `none` for a permanent
`SourceUnavailable` failure. -/
structure ConnectorOutcome where
  source_id : String
  items : Option (List RawItem)
deriving DecidableEq, Repr

/-- The sources whose connectors failed, as recorded in
`sources_failed`. -/
def failedSources (outcomes : List ConnectorOutcome) : List String :=
  (outcomes.filter (fun o => o.items.isNone)).map (fun o => o.source_id)

/-- The sources whose connectors succeeded. -/
def succeededSources (outcomes : List ConnectorOutcome) : List String :=
  (outcomes.filter (fun o => o.items.isSome)).map (fun o => o.source_id)

/-- Modelled from the spec: the terminal status the Orchestrator assigns
once every dispatched connector has completed or permanently failed —
`failed` when all connectors failed, `completed` when none failed, and
the spec's `completed_partial` when at least one succeeded and at least
one failed. -/
def finalStatus (outcomes : List ConnectorOutcome) : RunStatus :=
  if outcomes.all (fun o => o.items.isNone) then RunStatus.failed
  else if outcomes.all (fun o => o.items.isSome) then RunStatus.completed
  else RunStatus.completedPartial

/-- All raw items emitted by the succeeding connectors, in arrival
order. -/
def emittedItems (outcomes : List ConnectorOutcome) : List RawItem :=
  (outcomes.map (fun o => o.items.getD [])).flatten

/-- Modelled from the spec: one whole analysis run — connectors report
their outcomes, failures are recorded in `sources_failed`, and the final
aggregate folds only the succeeding sources' items through
deduplication, scoring and aggregation. -/
def runOrchestrator (sc : SentimentScorer) (cfg : BandConfig)
    (run_id : Nat) (entity_query : String) (requested_at : Nat)
    (outcomes : List ConnectorOutcome) : AnalysisRun × AggState :=
  ({ run_id := run_id
     entity_query := entity_query
     requested_at := requested_at
     status := finalStatus outcomes
     sources_requested := outcomes.map (fun o => o.source_id)
     sources_completed := succeededSources outcomes
     sources_failed := failedSources outcomes },
   runAgg cfg agg0 (pipelineScored sc entity_query (emittedItems outcomes)))

/-- Modelled from the spec: the events by which the Orchestrator mutates
a run's record as connectors report in, plus finalization. -/
inductive OrchEvent where
  | connectorCompleted (src : String) : OrchEvent
  | connectorFailed (src : String) : OrchEvent
  | finalize : OrchEvent
deriving DecidableEq, Repr

/-- Modelled from the spec: one mutation of an `AnalysisRun` record by
the Orchestrator.  A record in a terminal state admits no further
transition (§4.6: no further mutation occurs after terminal state). -/
def orchStep (r : AnalysisRun) (e : OrchEvent) : AnalysisRun :=
  if isTerminal r.status then r
  else
    match e with
    | OrchEvent.connectorCompleted src =>
      { r with sources_completed := r.sources_completed ++ [src]
               status := RunStatus.scoring }
    | OrchEvent.connectorFailed src =>
      { r with sources_failed := r.sources_failed ++ [src] }
    | OrchEvent.finalize =>
      { r with status :=
          if r.sources_completed = [] then RunStatus.failed
          else if r.sources_failed = [] then RunStatus.completed
          else RunStatus.completedPartial }

/-- Modelled from the spec: the Orchestrator's book of runs; `next_run_id`
supplies fresh identifiers. -/
structure OrchestratorState where
  runs : List AnalysisRun
  next_run_id : Nat
deriving DecidableEq, Repr

/-- Modelled from the spec: a fresh query creates a new `AnalysisRun` in
state `pending` with a fresh `run_id`; it never reopens an old run. -/
def startQuery (st : OrchestratorState) (q : String) (now : Nat)
    (sources : List String) : OrchestratorState :=
  { runs :=
      { run_id := st.next_run_id
        entity_query := q
        requested_at := now
        status := RunStatus.pending
        sources_requested := sources
        sources_completed := []
        sources_failed := [] } :: st.runs
    next_run_id := st.next_run_id + 1 }

/-- Applying an Orchestrator event to the run identified by `id`,
leaving every other run untouched. -/
def applyEvent (st : OrchestratorState) (id : Nat) (e : OrchEvent) :
    OrchestratorState :=
  { st with runs := st.runs.map (fun r => if r.run_id = id then orchStep r e else r) }

/-- Every stored run's identifier is below the fresh-id counter. -/
def idsBounded (st : OrchestratorState) : Prop :=
  ∀ r ∈ st.runs, r.run_id < st.next_run_id

/-! ## Derived notions and concrete inputs -/

/-- A scored stream is deduplicated when its aggregation keys are pairwise
distinct. -/
abbrev DistinctKeys (l : List ScoredItem) : Prop :=
  l.Pairwise (fun x y => itemKey x ≠ itemKey y)

/-- Modelled from the spec: the cross-source "overall" aggregate (§4.5):
a weighted mean across sources with each source's item count as weight,
recomputed on demand from the TimeBuckets named by `ks`. -/
def crossSourceOverall (a : AggState) (ks : List (String × Nat)) : ℚ :=
  if ((ks.map (fun k => (a.buckets k).count)).sum : ℚ) = 0 then 0
  else (ks.map (fun k => (a.buckets k).sum_score)).sum
    / ((ks.map (fun k => (a.buckets k).count)).sum : ℚ)

/-- The spec's Acme Corp example: first Reddit item of the single day. -/
def acmeRaw1 : RawItem :=
  { source_id := "reddit", external_id := "p1", author := "u1",
    text := "Acme launch is great", created_at := 3600, url := "url1" }

/-- The spec's Acme Corp example: second Reddit item of the single day. -/
def acmeRaw2 : RawItem :=
  { source_id := "reddit", external_id := "p2", author := "u2",
    text := "Acme support is bad", created_at := 7200, url := "url2" }

/-- The spec's Acme Corp example: third Reddit item of the single day. -/
def acmeRaw3 : RawItem :=
  { source_id := "reddit", external_id := "p3", author := "u3",
    text := "Acme is okay", created_at := 10800, url := "url3" }

/-- Acme example item scored 0.6. -/
def acmeScored1 : ScoredItem :=
  { raw := acmeRaw1, sentiment_score := 6/10, confidence := 9/10,
    model_version := "model-1", mention_span := none }

/-- Acme example item scored -0.3. -/
def acmeScored2 : ScoredItem :=
  { raw := acmeRaw2, sentiment_score := -(3/10), confidence := 9/10,
    model_version := "model-1", mention_span := none }

/-- Acme example item scored 0.1. -/
def acmeScored3 : ScoredItem :=
  { raw := acmeRaw3, sentiment_score := 1/10, confidence := 9/10,
    model_version := "model-1", mention_span := none }

/-- A cross-post pair: same source, same text up to case and whitespace. -/
def crossPost1 : RawItem :=
  { source_id := "reddit", external_id := "x1", author := "u1",
    text := "Acme rocks", created_at := 100, url := "url1" }

/-- The duplicate submission of `crossPost1`'s content. -/
def crossPost2 : RawItem :=
  { source_id := "reddit", external_id := "x2", author := "u2",
    text := "  ACME   rocks ", created_at := 200, url := "url2" }

/-- A concrete constant scorer used to instantiate hypotheses. -/
def constScorer : SentimentScorer :=
  { model_version := "model-1", scoreFn := fun _ => (1, 1) }

/-- A concrete Reddit item for the arrival-order witness. -/
def orderRawA : RawItem :=
  { source_id := "reddit", external_id := "a", author := "u",
    text := "good stuff", created_at := 100, url := "url" }

/-- A concrete Twitter item for the arrival-order witness. -/
def orderRawB : RawItem :=
  { source_id := "twitter", external_id := "b", author := "u",
    text := "bad stuff", created_at := 200, url := "url" }

/-- `orderRawA` scored. -/
def orderScoredA : ScoredItem :=
  { raw := orderRawA, sentiment_score := 1, confidence := 1,
    model_version := "model-1", mention_span := none }

/-- `orderRawB` scored. -/
def orderScoredB : ScoredItem :=
  { raw := orderRawB, sentiment_score := 0, confidence := 1,
    model_version := "model-1", mention_span := none }

/-- A single all-successful connector outcome. -/
def soloSuccess : ConnectorOutcome :=
  { source_id := "reddit", items := some [] }

/-- A concrete run already in a terminal state. -/
def doneRun : AnalysisRun :=
  { run_id := 0, entity_query := "Acme Corp", requested_at := 0,
    status := RunStatus.completed, sources_requested := ["reddit"],
    sources_completed := ["reddit"], sources_failed := [] }

/-- A concrete Orchestrator book holding only `doneRun`. -/
def bookSt : OrchestratorState :=
  { runs := [doneRun], next_run_id := 1 }

/-- A concrete run with one succeeding and one failing connector. -/
def mixedOutcomes : List ConnectorOutcome :=
  [{ source_id := "reddit", items := some [] },
   { source_id := "twitter", items := none }]

/-! ## Helper lemmas -/

lemma applyStats_comm (cfg : BandConfig) (st : BucketStats) (x y : ScoredItem) :
    applyStats cfg (applyStats cfg st x) y = applyStats cfg (applyStats cfg st y) x := by
  simp only [applyStats, BucketStats.mk.injEq]
  and_intros <;> first | trivial | ring

lemma foldItem_idem (cfg : BandConfig) (a : AggState) (s : ScoredItem) :
    foldItem cfg (foldItem cfg a s) s = foldItem cfg a s := by
  by_cases h : itemKey s ∈ a.applied
  · simp [foldItem, h]
  · simp [foldItem, h]

lemma foldItem_comm (cfg : BandConfig) {x y : ScoredItem}
    (hxy : itemKey x ≠ itemKey y) (a : AggState) :
    foldItem cfg (foldItem cfg a x) y = foldItem cfg (foldItem cfg a y) x := by
  by_cases hx : itemKey x ∈ a.applied <;> by_cases hy : itemKey y ∈ a.applied
  · simp [foldItem, hx, hy]
  · simp [foldItem, hx, hy]
  · simp [foldItem, hx, hy, Finset.mem_insert, hxy, Ne.symm hxy]
  · by_cases hb : bucketKey x = bucketKey y
    · simp [foldItem, hx, hy, Finset.mem_insert, hxy, Ne.symm hxy, hb]
      refine ⟨Finset.Insert.comm _ _ _, ?_⟩
      funext z
      by_cases hz : z = bucketKey y
      · subst hz
        simp [Function.update, hb, applyStats_comm]
      · simp [Function.update, hz, hb ▸ hz]
    · simp [foldItem, hx, hy, Finset.mem_insert, hxy, Ne.symm hxy]
      refine ⟨Finset.Insert.comm _ _ _, ?_⟩
      rw [Function.update_noteq (by exact fun h => hb h.symm), Function.update_noteq hb]
      exact Function.update_comm hb _ _ _

lemma runAgg_perm (cfg : BandConfig) {l1 l2 : List ScoredItem} (hp : l1.Perm l2)
    (hd : DistinctKeys l1) (a : AggState) :
    runAgg cfg a l1 = runAgg cfg a l2 := by
  induction hp generalizing a with
  | nil => rfl
  | cons x h ih =>
    exact ih (List.pairwise_cons.mp hd).2 (foldItem cfg a x)
  | swap x y l =>
    have hk : itemKey y ≠ itemKey x :=
      (List.pairwise_cons.mp hd).1 x (List.mem_cons_self x l)
    simp only [runAgg, List.foldl]
    rw [show foldItem cfg (foldItem cfg a y) x = foldItem cfg (foldItem cfg a x) y from
      foldItem_comm cfg hk a]
  | trans h1 _h2 ih1 ih2 =>
    have hd2 : DistinctKeys _ :=
      (h1.pairwise_iff (fun hxy h => hxy h.symm)).mp hd
    exact (ih1 hd a).trans (ih2 hd2 a)

lemma runAgg_buckets (cfg : BandConfig) (l : List ScoredItem) (a : AggState)
    (k : String × Nat) :
    (runAgg cfg a l).buckets k
      = ((freshItems a.applied l).filter (fun s => bucketKey s = k)).foldl
          (applyStats cfg) (a.buckets k) := by
  induction l generalizing a with
  | nil => rfl
  | cons s rest ih =>
    by_cases h : itemKey s ∈ a.applied
    · have hfold : foldItem cfg a s = a := by simp [foldItem, h]
      simp only [runAgg, List.foldl, hfold, freshItems, h, if_pos]
      exact ih a
    · have hfresh : freshItems a.applied (s :: rest)
          = s :: freshItems (insert (itemKey s) a.applied) rest := by
        simp [freshItems, h]
      have happlied : (foldItem cfg a s).applied = insert (itemKey s) a.applied := by
        simp [foldItem, h]
      simp only [runAgg, List.foldl, hfresh]
      by_cases hk : bucketKey s = k
      · rw [List.filter_cons_of_pos (by simp [hk])]
        have hih := ih (foldItem cfg a s)
        rw [runAgg] at hih
        rw [hih, happlied]
        have hbk : (foldItem cfg a s).buckets k = applyStats cfg (a.buckets k) s := by
          simp [foldItem, h, ← hk, Function.update]
        rw [hbk]
        rfl
      · rw [List.filter_cons_of_neg (by simp [hk])]
        have hih := ih (foldItem cfg a s)
        rw [runAgg] at hih
        rw [hih, happlied]
        have hbk : (foldItem cfg a s).buckets k = a.buckets k := by
          simp [foldItem, h, Function.update]
          intro heq
          exact absurd heq.symm hk
        rw [hbk]

lemma mem_map_fingerprint_dedup (fp : String × String) (l : List RawItem)
    (seen : Finset (String × String)) :
    fp ∈ (dedupItems seen l).map fingerprintOf
      ↔ fp ∉ seen ∧ fp ∈ l.map fingerprintOf := by
  induction l generalizing seen with
  | nil => simp [dedupItems]
  | cons r rest ih =>
    by_cases h : fingerprintOf r ∈ seen
    · by_cases hfp : fp = fingerprintOf r
      · subst hfp
        simp [dedupItems, h, ih, h]
      · simp [dedupItems, h, ih, hfp]
    · by_cases hfp : fp = fingerprintOf r
      · subst hfp
        simp [dedupItems, h, ih]
      · simp [dedupItems, h, ih, hfp, Finset.mem_insert]

lemma nodup_map_fingerprint_dedup (l : List RawItem) (seen : Finset (String × String)) :
    ((dedupItems seen l).map fingerprintOf).Nodup := by
  induction l generalizing seen with
  | nil => simp [dedupItems]
  | cons r rest ih =>
    by_cases h : fingerprintOf r ∈ seen
    · simp only [dedupItems, h, if_pos]
      exact ih seen
    · simp only [dedupItems, h, if_neg, Bool.false_eq_true, not_false_iff, List.map_cons,
        List.nodup_cons]
      refine ⟨?_, ih _⟩
      intro hmem
      exact ((mem_map_fingerprint_dedup _ _ _).mp hmem).1 (Finset.mem_insert_self _ _)

lemma length_filter_eq_one_of_nodup_map {α β : Type} (f : α → β) [DecidableEq β]
    {l : List α} (hnd : (l.map f).Nodup) {b : β} (hb : b ∈ l.map f) :
    (l.filter (fun x => f x = b)).length = 1 := by
  induction l with
  | nil => simp at hb
  | cons x t ih =>
    simp only [List.map_cons, List.nodup_cons] at hnd
    by_cases hx : f x = b
    · rw [List.filter_cons_of_pos (by simp [hx])]
      have hnone : ∀ y ∈ t, ¬ (f y = b) := fun y hy hfy =>
        hnd.1 (hx ▸ hfy ▸ List.mem_map_of_mem f hy)
      rw [List.filter_eq_nil_iff.mpr (by simpa using hnone)]
      rfl
    · rw [List.filter_cons_of_neg (by simp [hx])]
      apply ih hnd.2
      rcases List.mem_cons.mp hb with hb1 | hb2
      · exact absurd hb1.symm hx
      · exact hb2

lemma freshItems_eq_self {l : List ScoredItem} {A : Finset ((String × String) × String)}
    (hd : DistinctKeys l) (hA : ∀ s ∈ l, itemKey s ∉ A) : freshItems A l = l := by
  induction l generalizing A with
  | nil => rfl
  | cons s rest ih =>
    have hs : itemKey s ∉ A := hA s (List.mem_cons_self s rest)
    have hd' := List.pairwise_cons.mp hd
    simp only [freshItems, hs, if_neg, Bool.false_eq_true, not_false_iff]
    rw [ih hd'.2]
    intro y hy
    rw [Finset.mem_insert]
    push_neg
    exact ⟨Ne.symm (hd'.1 y hy), hA y (List.mem_cons_of_mem s hy)⟩

lemma count_foldl_applyStats (cfg : BandConfig) (m : List ScoredItem) (st : BucketStats) :
    (m.foldl (applyStats cfg) st).count = st.count + m.length := by
  induction m generalizing st with
  | nil => simp
  | cons s rest ih =>
    simp only [List.foldl, ih, applyStats, List.length_cons]
    omega

lemma distinctKeys_pipeline (sc : SentimentScorer) (q : String) (l : List RawItem) :
    DistinctKeys (pipelineScored sc q l) := by
  unfold DistinctKeys pipelineScored
  rw [List.pairwise_map]
  have hpw : (dedupItems ∅ l).Pairwise (fun x y => fingerprintOf x ≠ fingerprintOf y) :=
    List.pairwise_map.mp (nodup_map_fingerprint_dedup l ∅)
  apply hpw.imp
  intro a b hab
  simp only [itemKey, scoreItem, ne_eq, Prod.mk.injEq, not_and]
  intro hfp
  exact absurd hfp hab

lemma emittedItems_filter (outcomes : List ConnectorOutcome) :
    emittedItems outcomes
      = emittedItems (outcomes.filter (fun o => o.items.isSome)) := by
  induction outcomes with
  | nil => rfl
  | cons o rest ih =>
    by_cases h : o.items.isSome
    · rw [List.filter_cons_of_pos (by exact h)]
      simp only [emittedItems, List.map_cons, List.flatten_cons] at ih ⊢
      rw [ih]
    · have hnone : o.items = none := Option.not_isSome_iff_eq_none.mp h
      rw [List.filter_cons_of_neg (by simp [hnone])]
      simp only [emittedItems, List.map_cons, List.flatten_cons, hnone, Option.getD_none,
        List.nil_append]
      exact ih

lemma foldl_orchStep_terminal {r : AnalysisRun} (h : isTerminal r.status = true)
    (evs : List OrchEvent) : evs.foldl orchStep r = r := by
  induction evs with
  | nil => rfl
  | cons e rest ih =>
    simp only [List.foldl, orchStep, h, if_pos]
    exact ih

/-! ## Claim theorems -/

/-- C1: For every company name entered, submitting the Dashboard analyze
form only prevents the default event, sets the local `isAnalyzing` flag to
true, logs the name, and schedules the flag back to false after 2000 ms;
no API call is made and the rendered per-source sentiment values remain
the literal placeholder `"--"`. -/
theorem dashboard_analyze_placeholder_only (s : DashboardState) :
    handleAnalyze s
      = ({ companyName := s.companyName, isAnalyzing := true },
         [DashboardEffect.preventDefault,
          DashboardEffect.consoleLog ["Analyzing company:", s.companyName],
          DashboardEffect.scheduleTimeout 2000]) ∧
    (∀ ep : String, DashboardEffect.apiCall ep ∉ (handleAnalyze s).2) ∧
    (analyzeTimeoutCallback (handleAnalyze s).1).isAnalyzing = false ∧
    ∀ s' : DashboardState,
      (renderDashboard s').twitterSentiment = "--" ∧
      (renderDashboard s').redditSentiment = "--" ∧
      (renderDashboard s').newsSentiment = "--" := by
  refine ⟨rfl, ?_, rfl, fun s' => ⟨rfl, rfl, rfl⟩⟩
  intro ep hmem
  simp [handleAnalyze] at hmem

/-- C10: Whenever `isAnalyzing` is true the Analyze submit button renders
disabled, and every invocation of `handleAnalyze` schedules the 2000 ms
timeout whose callback returns the component to `isAnalyzing = false`. -/
theorem dashboard_button_disabled_and_recovers (s : DashboardState) :
    ((renderDashboard s).analyzeButtonDisabled = s.isAnalyzing) ∧
    (s.isAnalyzing = true → (renderDashboard s).analyzeButtonDisabled = true) ∧
    (DashboardEffect.scheduleTimeout 2000 ∈ (handleAnalyze s).2) ∧
    ((analyzeTimeoutCallback (handleAnalyze s).1).isAnalyzing = false) := by
  refine ⟨rfl, fun h => ?_, by simp [handleAnalyze], rfl⟩
  simp [renderDashboard, h]

/-- C10 witness: the button is disabled in the concrete analyzing state. -/
theorem dashboard_button_disabled_witness :
    (renderDashboard { companyName := "Acme Corp", isAnalyzing := true }).analyzeButtonDisabled
      = true :=
  (dashboard_button_disabled_and_recovers
    { companyName := "Acme Corp", isAnalyzing := true }).2.1 rfl

/-- C2: The Aggregator's fold is idempotent — folding a ScoredItem into
any Aggregator state twice yields exactly the state of folding it once,
because re-application keyed by `(fingerprint, model_version)` is
rejected. -/
theorem aggregator_fold_idempotent (cfg : BandConfig) (b : AggState) (s : ScoredItem) :
    foldItem cfg (foldItem cfg b s) s = foldItem cfg b s :=
  foldItem_idem cfg b s

/-- C3: The Sentiment Scorer is deterministic — for a fixed scorer (hence
fixed `model_version`), scoring the same text returns the same
`(sentiment_score, confidence)` regardless of the external mutable state
threaded through the invocation and regardless of any earlier call. -/
theorem scorer_deterministic (sc : SentimentScorer) (t u : String)
    (log1 log2 : List String) :
    (invokeScorer sc log1 t).1 = (invokeScorer sc log2 t).1 ∧
    (invokeScorer sc (invokeScorer sc log1 u).2 t).1 = (invokeScorer sc log1 t).1 :=
  ⟨rfl, rfl⟩

/-- C4: Banding maps a score by the fixed ±0.2 thresholds (≥ 0.2 positive,
≤ -0.2 negative, else neutral), and folding the Acme example items with
scores 0.6, -0.3, 0.1 into one day's Reddit TimeBucket yields count 3,
sum_score 0.4 and band distribution positive 1, negative 1, neutral 1. -/
theorem sentiment_banding_and_acme_example :
    (∀ s : ℚ, -1 ≤ s → s ≤ 1 →
      ((2/10 ≤ s → bandOf defaultBandConfig s = SentimentBand.positive) ∧
       (s ≤ -(2/10) → bandOf defaultBandConfig s = SentimentBand.negative) ∧
       (-(2/10) < s → s < 2/10 → bandOf defaultBandConfig s = SentimentBand.neutral))) ∧
    (runAgg defaultBandConfig agg0 [acmeScored1, acmeScored2, acmeScored3]).buckets
        ("reddit", 0)
      = { count := 3, sum_score := 4/10, positive_count := 1, negative_count := 1,
          neutral_count := 1 } := by
  constructor
  · intro s _hlo _hhi
    refine ⟨fun h => ?_, fun h => ?_, fun hgt hlt => ?_⟩
    · simp [bandOf, defaultBandConfig, h]
    · have hnp : ¬ ((2 : ℚ)/10 ≤ s) := by linarith
      simp [bandOf, defaultBandConfig, hnp, h]
    · have hnp : ¬ ((2 : ℚ)/10 ≤ s) := by linarith
      have hnn : ¬ (s ≤ -((2 : ℚ)/10)) := by linarith
      simp [bandOf, defaultBandConfig, hnp, hnn]
  · simp +decide [runAgg, foldItem, agg0, itemKey, fingerprintOf, bucketKey, bucketStart,
      bucketWidth, applyStats, bandOf, defaultBandConfig, Function.update,
      acmeScored1, acmeScored2, acmeScored3, acmeRaw1, acmeRaw2, acmeRaw3, emptyStats]
    norm_num
    all_goals decide

/-- C4 witness: 0.6 lies in [-1, 1], is at least 0.2 and is banded
positive. -/
theorem sentiment_banding_witness :
    bandOf defaultBandConfig (6/10) = SentimentBand.positive :=
  (sentiment_banding_and_acme_example.1 (6/10) (by norm_num) (by norm_num)).1 (by norm_num)

/-- C5: Deduplication is exact on normalized text within a source — if two
RawItems of one run share a source and normalized text, exactly one
ScoredItem with that content's fingerprint is produced, and each
TimeBucket's count tallies every distinct surviving content exactly once
(so the duplicated content is counted once, not twice). -/
theorem dedup_exact_on_normalized_text (sc : SentimentScorer) (cfg : BandConfig)
    (q : String) (l : List RawItem) (r1 r2 : RawItem)
    (h1 : r1 ∈ l) (h2 : r2 ∈ l)
    (hsrc : r1.source_id = r2.source_id)
    (htext : normalizeText r1.text = normalizeText r2.text) :
    ((pipelineScored sc q l).filter
        (fun x => fingerprintOf x.raw = fingerprintOf r1)).length = 1 ∧
    ∀ k : String × Nat,
      ((runAgg cfg agg0 (pipelineScored sc q l)).buckets k).count
        = ((pipelineScored sc q l).filter (fun x => bucketKey x = k)).length := by
  constructor
  · have hb : fingerprintOf r1 ∈ (dedupItems ∅ l).map fingerprintOf :=
      (mem_map_fingerprint_dedup _ _ _).mpr
        ⟨Finset.not_mem_empty _, List.mem_map_of_mem fingerprintOf h1⟩
    have hkey := length_filter_eq_one_of_nodup_map fingerprintOf
      (nodup_map_fingerprint_dedup l ∅) hb
    unfold pipelineScored
    rw [List.filter_map, List.length_map]
    convert hkey using 2
  · intro k
    rw [runAgg_buckets]
    rw [freshItems_eq_self (distinctKeys_pipeline sc q l)
      (fun s _ => by simp [agg0])]
    rw [count_foldl_applyStats]
    simp [agg0, emptyStats]

/-- C5 witness: the cross-post pair of items with identical normalized
text yields exactly one ScoredItem for its fingerprint. -/
theorem dedup_exact_witness :
    ((pipelineScored constScorer "Acme Corp" [crossPost1, crossPost2]).filter
        (fun x => fingerprintOf x.raw = fingerprintOf crossPost1)).length = 1 :=
  (dedup_exact_on_normalized_text constScorer defaultBandConfig "Acme Corp"
    [crossPost1, crossPost2] crossPost1 crossPost2 (by decide) (by decide) rfl
    (by decide)).1

/-- C6: Aggregation is order-independent — for a deduplicated stream
(pairwise-distinct aggregation keys), every permutation of the arrival
order yields the identical final Aggregator state, and hence identical
TimeBuckets and cross-source aggregates. -/
theorem aggregation_order_independent (cfg : BandConfig) (a : AggState)
    (l1 l2 : List ScoredItem) (hp : l1.Perm l2) (hd : DistinctKeys l1) :
    runAgg cfg a l1 = runAgg cfg a l2 ∧
    ∀ ks : List (String × Nat),
      crossSourceOverall (runAgg cfg a l1) ks
        = crossSourceOverall (runAgg cfg a l2) ks := by
  have h := runAgg_perm cfg hp hd a
  exact ⟨h, fun ks => by rw [h]⟩

/-- C6 witness: swapping the arrival order of one Reddit item and one
Twitter item leaves the final aggregate state unchanged. -/
theorem aggregation_order_independent_witness :
    runAgg defaultBandConfig agg0 [orderScoredA, orderScoredB]
      = runAgg defaultBandConfig agg0 [orderScoredB, orderScoredA] :=
  (aggregation_order_independent defaultBandConfig agg0
    [orderScoredA, orderScoredB] [orderScoredB, orderScoredA]
    (List.Perm.swap orderScoredB orderScoredA []) (by decide)).1

/-- C7: Recomputability — after the Aggregator processes any arrival
sequence, every TimeBucket's counters equal the fold of exactly those
applied (not-superseded) ScoredItems whose source matches and whose
`created_at` falls in that bucket. -/
theorem timebucket_recomputable (cfg : BandConfig) (l : List ScoredItem)
    (src : String) (start : Nat) :
    (runAgg cfg agg0 l).buckets (src, start)
      = ((freshItems ∅ l).filter
          (fun s => s.raw.source_id = src ∧ bucketStart s.raw.created_at = start)).foldl
          (applyStats cfg) emptyStats := by
  rw [runAgg_buckets]
  have hfil : (freshItems agg0.applied l).filter (fun s => bucketKey s = (src, start))
      = (freshItems ∅ l).filter
          (fun s => s.raw.source_id = src ∧ bucketStart s.raw.created_at = start) := by
    apply List.filter_congr
    intro s _
    simp [bucketKey, Prod.ext_iff]
  rw [hfil]
  rfl

/-- C8 (amended): every connector failure is recorded in `sources_failed`;
a run with at least one success and at least one failure terminates
`completed_partial`; a run whose connectors all fail terminates `failed`;
a nonempty run with no failure terminates `completed`; and the final
aggregate reflects only the succeeding sources' items. -/
theorem run_failure_accounting (sc : SentimentScorer) (cfg : BandConfig)
    (rid : Nat) (q : String) (t : Nat) (outcomes : List ConnectorOutcome) :
    (∀ src : String,
      src ∈ (runOrchestrator sc cfg rid q t outcomes).1.sources_failed
        ↔ ∃ o ∈ outcomes, o.source_id = src ∧ o.items = none) ∧
    ((∃ o ∈ outcomes, o.items ≠ none) → (∃ o ∈ outcomes, o.items = none) →
      (runOrchestrator sc cfg rid q t outcomes).1.status = RunStatus.completedPartial) ∧
    ((∀ o ∈ outcomes, o.items = none) →
      (runOrchestrator sc cfg rid q t outcomes).1.status = RunStatus.failed) ∧
    ((∃ o, o ∈ outcomes) → (∀ o ∈ outcomes, o.items ≠ none) →
      (runOrchestrator sc cfg rid q t outcomes).1.status = RunStatus.completed) ∧
    (runOrchestrator sc cfg rid q t outcomes).2
      = runAgg cfg agg0 (pipelineScored sc q
          (emittedItems (outcomes.filter (fun o => o.items.isSome)))) := by
  refine ⟨?_, ?_, ?_, ?_, ?_⟩
  · intro src
    simp [runOrchestrator, failedSources, List.mem_map, List.mem_filter,
      Option.isNone_iff_eq_none]
    tauto
  · rintro ⟨o1, ho1, hne⟩ ⟨o2, ho2, hnone⟩
    have hno : ¬ (outcomes.all (fun o => o.items.isNone) = true) := by
      rw [List.all_eq_true]
      intro hall
      exact hne (Option.isNone_iff_eq_none.mp (hall o1 ho1))
    have hns : ¬ (outcomes.all (fun o => o.items.isSome) = true) := by
      rw [List.all_eq_true]
      intro hall
      have := hall o2 ho2
      simp [hnone] at this
    simp [runOrchestrator, finalStatus, hno, hns]
  · intro hall
    have hcond : outcomes.all (fun o => o.items.isNone) = true := by
      rw [List.all_eq_true]
      intro o ho
      simp [hall o ho]
    simp [runOrchestrator, finalStatus, hcond]
  · rintro ⟨o0, ho0⟩ hall
    have hno : ¬ (outcomes.all (fun o => o.items.isNone) = true) := by
      rw [List.all_eq_true]
      intro h
      exact hall o0 ho0 (Option.isNone_iff_eq_none.mp (h o0 ho0))
    have hs : outcomes.all (fun o => o.items.isSome) = true := by
      rw [List.all_eq_true]
      intro o ho
      rcases ho2 : o.items with _ | v
      · exact absurd ho2 (hall o ho)
      · simp [ho2]
    simp [runOrchestrator, finalStatus, hno, hs]
  · simp only [runOrchestrator]
    rw [← emittedItems_filter]

/-- C8 witness: with one succeeding and one failing connector the run
terminates in the spec's `completed_partial` state. -/
theorem run_failure_accounting_witness :
    (runOrchestrator constScorer defaultBandConfig 1 "Acme Corp" 0 mixedOutcomes).1.status
      = RunStatus.completedPartial :=
  (run_failure_accounting constScorer defaultBandConfig 1 "Acme Corp" 0
    mixedOutcomes).2.1
    ⟨{ source_id := "reddit", items := some [] }, by decide, by decide⟩
    ⟨{ source_id := "twitter", items := none }, by decide, rfl⟩

/-- C8 counterexample: a run whose single connector succeeds has at least
one succeeding connector yet terminates `completed`, not the
`completed_partial` the claim's conditional demands. -/
theorem run_failure_claim_counterexample :
    (∃ o ∈ [soloSuccess], o.items ≠ none) ∧
    (runOrchestrator constScorer defaultBandConfig 0 "Acme Corp" 0 [soloSuccess]).1.status
      = RunStatus.completed ∧
    RunStatus.completed ≠ RunStatus.completedPartial := by
  refine ⟨⟨soloSuccess, by decide, by decide⟩, ?_, by decide⟩
  simp [runOrchestrator, finalStatus, soloSuccess]

/-- C9: Terminal-state immutability — once a run's status is terminal no
Orchestrator event (nor any sequence of them, nor an event addressed
through the book of runs) mutates its record, and a fresh query creates a
brand-new pending `AnalysisRun` whose identifier collides with no stored
run. -/
theorem terminal_run_immutable :
    (∀ r : AnalysisRun, isTerminal r.status = true →
      (∀ e : OrchEvent, orchStep r e = r) ∧
      ∀ evs : List OrchEvent, evs.foldl orchStep r = r) ∧
    (∀ st : OrchestratorState, ∀ id : Nat, ∀ e : OrchEvent, ∀ r ∈ st.runs,
      isTerminal r.status = true → r ∈ (applyEvent st id e).runs) ∧
    (∀ st : OrchestratorState, ∀ q : String, ∀ now : Nat, ∀ sources : List String,
      idsBounded st →
      ∃ newr ∈ (startQuery st q now sources).runs,
        newr.run_id = st.next_run_id ∧ newr.status = RunStatus.pending ∧
        newr.entity_query = q ∧
        (∀ old ∈ st.runs, newr.run_id ≠ old.run_id) ∧
        idsBounded (startQuery st q now sources)) := by
  refine ⟨?_, ?_, ?_⟩
  · intro r hterm
    exact ⟨fun e => by simp [orchStep, hterm], foldl_orchStep_terminal hterm⟩
  · intro st id e r hr hterm
    have hfix : (if r.run_id = id then orchStep r e else r) = r := by
      split
      · simp [orchStep, hterm]
      · rfl
    simp only [applyEvent]
    exact List.mem_map.mpr ⟨r, hr, hfix⟩
  · intro st q now sources hb
    refine ⟨{ run_id := st.next_run_id, entity_query := q, requested_at := now,
              status := RunStatus.pending, sources_requested := sources,
              sources_completed := [], sources_failed := [] },
            by simp [startQuery], rfl, rfl, rfl, ?_, ?_⟩
    · intro old hold heq
      have heq2 : st.next_run_id = old.run_id := heq
      have hlt := hb old hold
      omega
    · intro r hr
      simp only [startQuery, List.mem_cons] at hr
      rcases hr with rfl | hr
      · simp [startQuery]
      · have := hb r hr
        simp only [startQuery]
        omega

/-- C9 witness: the concrete completed run is unchanged by an event
sequence and survives unchanged in the book of runs. -/
theorem terminal_run_immutable_witness :
    ([OrchEvent.finalize, OrchEvent.connectorFailed "twitter"].foldl orchStep doneRun
      = doneRun) ∧
    doneRun ∈ (applyEvent bookSt 0 OrchEvent.finalize).runs :=
  ⟨(terminal_run_immutable.1 doneRun (by decide)).2
      [OrchEvent.finalize, OrchEvent.connectorFailed "twitter"],
   terminal_run_immutable.2.1 bookSt 0 OrchEvent.finalize doneRun (by decide) (by decide)⟩

end RedditReview
